import Mathlib

/-!
Verification of the entity-construction pipeline of the `typeorm-seeding`
repository (`src/factory.ts`) against its natural-language specification.

The embedding translates `Factory` and its methods (`make`, `create`,
`makeMany`, `createMany`, `save`, and the private `makeEntity`,
`resolveEntity`, `entityClass` helpers) into pure Lean functions.

Modelling decisions:
- JavaScript objects (entities, contexts, save options) are association
  lists keyed by `String`; assignment to an existing key replaces its
  value in place, assignment to a fresh key appends it, matching the
  insertion-order semantics of JS objects.
- Attribute values (`Value`) are primitives, promise-like deferred values,
  `Factory` instances, or nested objects; `await` on a promise-like value
  unwraps its chain completely (as JS `await` does with thenables) and
  leaves every other value unchanged.
- The asynchronous pipeline is single-threaded and strictly sequential
  (spec section 5), so it is embedded as explicit state passing over a
  `DbState` that records the persistence collaborator (initialization
  flag, identity counter) and an event trace (hook invocations, map
  invocations, data-source initialization, saves, finalize invocations).
  A thrown error propagates while leaving already-performed side effects
  in place, hence results are `Except Err Entity × DbState`.
- Subclass hooks: the overridable `entity` hook is a function of the
  call context (its optional first argument, a fresh instance of the
  configured entity class, is fully determined by the factory
  configuration, so any dependence on it folds into the closure);
  the single-use `map` function and the `finalize` hook mutate the
  entity in place and are embedded as first-order lists of field
  assignments (`MapOp`), which is what such hooks do in the repository
  and its tests.
- Nested-factory resolution can recurse through arbitrary factory graphs
  with no termination guarantee (spec section 4.2 states this), so the
  recursive pipeline takes explicit fuel that is consumed only when the
  value resolver constructs an entity through a nested factory; running
  out of fuel raises the artificial `Err.outOfFuel`.
- The `SeedingSource`/data-source collaborator is out of scope of the
  repository core (spec section 1); factories are assumed bound to the
  one shared persistence handle, represented by the ambient `DbState`.
-/

namespace Seeding

/-- Primitive JS values appearing as entity attributes and context entries. -/
inductive Prim where
  | str (s : String)
  | num (n : Int)
  | bool (b : Bool)
  | undef
deriving DecidableEq, Repr

/-- One entry of `requiredContextKeys`: a single key or a group of keys
(source type `(keyof Context | (keyof Context)[])[]`). -/
inductive KeyEntry where
  | single (k : String)
  | group (ks : List String)
deriving DecidableEq, Repr

/-- Errors raised by the pipeline. `missingContext` is the
`MissingContextError` of the context guard, `notImplemented` is the
`NotImplementedError` thrown by the default `entity` hook, and
`outOfFuel` is the artificial bound on nested-factory recursion depth. -/
inductive Err where
  | missingContext (entry : KeyEntry)
  | notImplemented
  | outOfFuel
deriving DecidableEq, Repr

/-- A construction context: a plain record of primitive values. -/
abbrev Ctx := List (String × Prim)

/-- TypeORM `SaveOptions`: a plain record of primitive values. -/
abbrev SaveOpts := List (String × Prim)

mutual
/-- An attribute value: primitive, promise-like, a `Factory` instance,
or a nested plain object (such as an entity built by a nested factory). -/
inductive Value where
  | prim (p : Prim)
  | prom (v : Value)
  | factV (f : Factory)
  | obj (fields : List (String × Value))

/-- A `Factory` instance: definition-time options (`options.entity`,
`options.requiredContextKeys`), constructor-time overrides
(`optionOverrides.entity`, `optionOverrides.requiredContextKeys`), the
optionally overridden `entity` hook, the registered `map` function, and
the `finalize` hook (empty list = the default no-op). An entity class is
represented by the attribute record a fresh `new`-constructed instance
carries. -/
inductive Factory where
  | mk
    (optionsEntity : Option (List (String × Value)))
    (optionsRequiredContextKeys : Option (List KeyEntry))
    (overridesEntity : Option (List (String × Value)))
    (overridesRequiredContextKeys : Option (List KeyEntry))
    (entityHook : Option (List (String × Prim) → Except Err (List (String × Value))))
    (mapFunction : Option (List MapOp))
    (finalizeOps : List MapOp)

/-- A first-order in-place mutation of an entity, used to embed `map`
functions and overridden `finalize` hooks: assign value `v` to field `k`. -/
inductive MapOp where
  | set (k : String) (v : Value)
end

/-- An entity: a plain record of attribute values. -/
abbrev Entity := List (String × Value)

def Factory.optionsEntity : Factory → Option Entity
  | .mk a _ _ _ _ _ _ => a

def Factory.optionsRequiredContextKeys : Factory → Option (List KeyEntry)
  | .mk _ a _ _ _ _ _ => a

def Factory.overridesEntity : Factory → Option Entity
  | .mk _ _ a _ _ _ _ => a

def Factory.overridesRequiredContextKeys : Factory → Option (List KeyEntry)
  | .mk _ _ _ a _ _ _ => a

def Factory.entityHook : Factory → Option (Ctx → Except Err Entity)
  | .mk _ _ _ _ a _ _ => a

def Factory.mapFunction : Factory → Option (List MapOp)
  | .mk _ _ _ _ _ a _ => a

def Factory.finalizeOps : Factory → List MapOp
  | .mk _ _ _ _ _ _ a => a

/-- Observable side effects of one construction call, in order. -/
inductive Event where
  | entityHookCall (context : Ctx)
  | mapCall
  | dsInit
  | saveEv (e : Entity) (saveOptions : Option SaveOpts)
  | finalizeEv (e : Entity) (context : Ctx)

/-- The persistence collaborator and the event trace: data-source
initialization flag, next identity value the entity manager will assign,
and the ordered log of observable side effects. -/
structure DbState where
  initialized : Bool
  nextId : Nat
  trace : List Event

/-- The initial state: data source not initialized, no events yet. -/
def st0 : DbState := ⟨false, 0, []⟩

/-- Field read on a JS object (`entity[key]`). -/
def getField : Entity → String → Option Value
  | [], _ => none
  | (k2, v) :: rest, k => if k == k2 then some v else getField rest k

/-- Field read projected to a primitive value. -/
def getPrim (e : Entity) (k : String) : Option Prim :=
  match getField e k with
  | some (.prim p) => some p
  | _ => none

/-- Field assignment on a JS object (`entity[key] = value`): replaces the
value at an existing key in place, appends a missing key at the end. -/
def setField : Entity → String → Value → Entity
  | [], k, v => [(k, v)]
  | (k2, v2) :: rest, k, v =>
    if k == k2 then (k2, v) :: rest else (k2, v2) :: setField rest k v

/-- The override merge of `Factory.makeEntity` (source lines 182-185):
assign every key of `overrideParams` onto the entity, in order. -/
def applyOverrides (e : Entity) (overrideParams : Entity) : Entity :=
  overrideParams.foldl (fun acc p => setField acc p.1 p.2) e

/-- Run a first-order mutation list (an embedded `map` or `finalize`
hook body) on an entity. -/
def applyMapOps (ops : List MapOp) (e : Entity) : Entity :=
  ops.foldl (fun acc op => match op with | .set k v => setField acc k v) e

/-- Modelled from the spec: `utils/is-promise-like.util` is not under
`src/`; per spec section 4.2 a value is promise-like iff it is a deferred
computation, which the embedding represents with the `Value.prom`
constructor. -/
def isPromiseLikeV : Value → Bool
  | .prom _ => true
  | _ => false

/-- JS `await`: unwraps a chain of promise-like values completely and
leaves any other value (including a `Factory` instance a promise
resolved to) unchanged. -/
def awaitValue : Value → Value
  | .prom v => awaitValue v
  | v => v

/-- The `instanceof Factory` test of the value resolver. -/
def asFactory : Value → Option Factory
  | .factV g => some g
  | _ => none

/-- A value that the resolver passes through unchanged: neither
promise-like nor a `Factory` instance. -/
def plainValue : Value → Bool
  | .prom _ => false
  | .factV _ => false
  | _ => true

def isFactoryV : Value → Bool
  | .factV _ => true
  | _ => false

/-- Key presence in a context (`key in context`). -/
def hasKey (context : Ctx) (k : String) : Bool :=
  context.any (fun p => p.1 == k)

/-- Satisfaction of one required-key entry, per spec section 4.3: a
single key must be present; a group requires all of its keys present. -/
def entrySatisfied (context : Ctx) : KeyEntry → Bool
  | .single k => hasKey context k
  | .group ks => ks.all (hasKey context)

/-- Modelled from the spec: `utils/expect-context.util` is not under
`src/`. Per spec section 4.3, the context guard fails with a
`MissingContextError` identifying the first unsatisfied required-key
entry, and succeeds otherwise. -/
def expectContext (context : Ctx) (keys : List KeyEntry) : Except Err Unit :=
  match keys.find? (fun entry => !(entrySatisfied context entry)) with
  | some entry => .error (.missingContext entry)
  | none => .ok ()

/-- The `requiredContextKeys` getter (source lines 34-36):
`optionOverrides.requiredContextKeys ?? options.requiredContextKeys`. -/
def Factory.requiredContextKeys (f : Factory) : Option (List KeyEntry) :=
  match f.overridesRequiredContextKeys with
  | some ks => some ks
  | none => f.optionsRequiredContextKeys

/-- The private `entityClass` resolver (source lines 160-162):
`optionOverrides?.entity ? optionOverrides.entity : options.entity`. -/
def Factory.entityClass (f : Factory) : Option Entity :=
  match f.overridesEntity with
  | some t => some t
  | none => f.optionsEntity

/-- The `entity` hook dispatch: an overridden hook runs with the call
context; the base implementation (source lines 59-65) returns the fresh
instance when one was passed and otherwise throws (the
`NotImplementedError` of the spec). -/
def Factory.entity (f : Factory) (entity : Option Entity) (context : Ctx) :
    Except Err Entity :=
  match f.entityHook with
  | some hook => hook context
  | none =>
    match entity with
    | some e => .ok e
    | none => .error .notImplemented

/-- The required-context guard of `makeEntity` (source lines 170-172):
validate only when `requiredContextKeys` is configured. -/
def contextCheck (f : Factory) (context : Ctx) : Except Err Unit :=
  match f.requiredContextKeys with
  | some keys => expectContext context keys
  | none => .ok ()

/-- The `save` method (source lines 132-142): initialize the data source
if it is not initialized yet, then persist through the entity manager.
The entity manager itself is an external collaborator; modelled from the
spec (section 6): its save returns the entity with the
persistence-assigned identity field populated. -/
def dbSave (entity : Entity) (saveOptions : Option SaveOpts) (st : DbState) :
    Entity × DbState :=
  let st1 :=
    if st.initialized then st
    else { st with initialized := true, trace := st.trace ++ [Event.dsInit] }
  let saved := setField entity "id" (Value.prim (Prim.num (Int.ofNat st1.nextId)))
  (saved, { st1 with nextId := st1.nextId + 1,
                     trace := st1.trace ++ [Event.saveEv saved saveOptions] })

/-- The attribute loop of the private `resolveEntity` (source lines
194-212), parameterized by the nested-factory constructor `nested`
(which performs `attributeValue.create(undefined, saveOptions)` or
`attributeValue.make()` depending on the enclosing `persist` flag). For
each attribute: if the original value is promise-like it is awaited; if
the original value is a `Factory` instance the attribute is replaced by
the nested construction result. Both tests inspect the original
`attributeValue`, exactly as the source does. -/
def resolveEntityWith (nested : Factory → DbState → Except Err Entity × DbState) :
    Entity → DbState → Except Err Entity × DbState
  | [], st => (.ok [], st)
  | (k, v) :: rest, st =>
    let v1 := if isPromiseLikeV v then awaitValue v else v
    match asFactory v with
    | some g =>
      match nested g st with
      | (.error e, st2) => (.error e, st2)
      | (.ok child, st2) =>
        match resolveEntityWith nested rest st2 with
        | (.error e, st3) => (.error e, st3)
        | (.ok rest2, st3) => (.ok ((k, Value.obj child) :: rest2), st3)
    | none =>
      match resolveEntityWith nested rest st with
      | (.error e, st2) => (.error e, st2)
      | (.ok rest2, st2) => (.ok ((k, v1) :: rest2), st2)

/-- The `map`-function step of `makeEntity` (source lines 178-180): run
the registered map function on the entity (in-place mutation) when one
is registered. -/
def applyMapStep (f : Factory) (entity0 : Entity) (st : DbState) : Entity × DbState :=
  match f.mapFunction with
  | some ops => (applyMapOps ops entity0,
                 { st with trace := st.trace ++ [Event.mapCall] })
  | none => (entity0, st)

/-- The body of the private `makeEntity` (source lines 164-192) for one
fuel level, parameterized by the nested-factory constructor: validate
required context, resolve the entity class, invoke the `entity` hook on
a fresh instance, run the `map` function if registered, merge the
override params, resolve all attributes, then invoke `finalize` on the
resolved entity (in-place mutation, return value ignored) and return it. -/
def makeEntityCore
    (nested : Bool → Option SaveOpts → Factory → DbState → Except Err Entity × DbState)
    (f : Factory) (overrideParams : Entity) (context : Ctx) (persist : Bool)
    (saveOptions : Option SaveOpts) (st : DbState) : Except Err Entity × DbState :=
  match contextCheck f context with
  | .error e => (.error e, st)
  | .ok _ =>
    let st1 : DbState := { st with trace := st.trace ++ [Event.entityHookCall context] }
    match f.entity f.entityClass context with
    | .error e => (.error e, st1)
    | .ok entity0 =>
      let stepMap := applyMapStep f entity0 st1
      let merged := applyOverrides stepMap.1 overrideParams
      match resolveEntityWith (nested persist saveOptions) merged stepMap.2 with
      | (.error e, st3) => (.error e, st3)
      | (.ok resolved, st3) =>
        let st4 : DbState := { st3 with trace := st3.trace ++ [Event.finalizeEv resolved context] }
        (.ok (applyMapOps f.finalizeOps resolved), st4)

/-- The private `makeEntity`, with explicit nesting fuel. A nested
factory attribute under `persist` runs the source line 204 call
`attributeValue.create(undefined, saveOptions)`: the overrides default
to the empty record, the enclosing save options land in the context
parameter (whose default kicks in only when they are absent), and the
nested save receives no save options; without `persist` it runs
`attributeValue.make()`. -/
def Factory.makeEntity :
    Nat → Factory → Entity → Ctx → Bool → Option SaveOpts → DbState →
    Except Err Entity × DbState
  | 0 => makeEntityCore (fun _ _ _ st => (.error .outOfFuel, st))
  | fuel + 1 => makeEntityCore (fun persist so g st =>
      if persist then
        match Factory.makeEntity fuel g [] (match so with | some s => s | none => []) true none st with
        | (.error e, st2) => (.error e, st2)
        | (.ok e, st2) =>
          let p := dbSave e none st2
          (.ok p.1, p.2)
      else
        Factory.makeEntity fuel g [] [] false none st)

/-- The public `make` (source lines 90-92). -/
def Factory.make (fuel : Nat) (f : Factory) (overrideParams : Entity)
    (context : Ctx) (st : DbState) : Except Err Entity × DbState :=
  f.makeEntity fuel overrideParams context false none st

/-- The public `create` (source lines 108-117): make the entity with
`persist = true`, then save it. -/
def Factory.create (fuel : Nat) (f : Factory) (overrideParams : Entity)
    (context : Ctx) (saveOptions : Option SaveOpts) (st : DbState) :
    Except Err Entity × DbState :=
  match f.makeEntity fuel overrideParams context true saveOptions st with
  | (.error e, st2) => (.error e, st2)
  | (.ok entity, st2) =>
    let p := dbSave entity saveOptions st2
    (.ok p.1, p.2)

/-- The loop body of `makeMany` (source lines 97-103), iterating the
number of times the `for` loop body runs. -/
def Factory.makeManyGo (fuel : Nat) (f : Factory) :
    Nat → Entity → Ctx → DbState → Except Err (List Entity) × DbState
  | 0, _, _, st => (.ok [], st)
  | n + 1, ov, ctx, st =>
    match Factory.make fuel f ov ctx st with
    | (.error e, st2) => (.error e, st2)
    | (.ok e, st2) =>
      match Factory.makeManyGo fuel f n ov ctx st2 with
      | (.error e2, st3) => (.error e2, st3)
      | (.ok rest, st3) => (.ok (e :: rest), st3)

/-- The public `makeMany` (source lines 97-103): the loop
`for (let index = 0; index < amount; index++)` runs `amount.toNat`
times (zero times for any non-positive amount). -/
def Factory.makeMany (fuel : Nat) (f : Factory) (amount : Int)
    (overrideParams : Entity) (context : Ctx) (st : DbState) :
    Except Err (List Entity) × DbState :=
  f.makeManyGo fuel amount.toNat overrideParams context st

/-- The loop body of `createMany` (source lines 147-158). -/
def Factory.createManyGo (fuel : Nat) (f : Factory) :
    Nat → Entity → Ctx → Option SaveOpts → DbState →
    Except Err (List Entity) × DbState
  | 0, _, _, _, st => (.ok [], st)
  | n + 1, ov, ctx, so, st =>
    match Factory.create fuel f ov ctx so st with
    | (.error e, st2) => (.error e, st2)
    | (.ok e, st2) =>
      match Factory.createManyGo fuel f n ov ctx so st2 with
      | (.error e2, st3) => (.error e2, st3)
      | (.ok rest, st3) => (.ok (e :: rest), st3)

/-- The public `createMany` (source lines 147-158). -/
def Factory.createMany (fuel : Nat) (f : Factory) (amount : Int)
    (overrideParams : Entity) (context : Ctx) (saveOptions : Option SaveOpts)
    (st : DbState) : Except Err (List Entity) × DbState :=
  f.createManyGo fuel amount.toNat overrideParams context saveOptions st

/-! Trace observation helpers. -/

def isSaveEv : Event → Bool
  | .saveEv _ _ => true
  | _ => false

def isDsInit : Event → Bool
  | .dsInit => true
  | _ => false

def isFinalizeEv : Event → Bool
  | .finalizeEv _ _ => true
  | _ => false

/-- The save options recorded by a save event. -/
def evSaveOptions : Event → Option (Option SaveOpts)
  | .saveEv _ o => some o
  | _ => none

/-- The context recorded by an entity-hook invocation event. -/
def evHookContext : Event → Option Ctx
  | .entityHookCall c => some c
  | _ => none

/-- Number of entity-manager saves in a trace. -/
def saveCount (tr : List Event) : Nat := tr.countP (fun ev => isSaveEv ev)

/-- Number of data-source initializations in a trace. -/
def initCount (tr : List Event) : Nat := tr.countP (fun ev => isDsInit ev)

/-- The persistence collaborator was not touched between two states:
initialization flag, identity counter, save count and initialization
count are all unchanged. -/
def noPersistChange (st st2 : DbState) : Prop :=
  st2.initialized = st.initialized ∧ st2.nextId = st.nextId ∧
    saveCount st2.trace = saveCount st.trace ∧
    initCount st2.trace = initCount st.trace

/-- The entity the `entity` hook followed by the `map` function produce,
before override merging and resolution. -/
def hookAndMap (f : Factory) (context : Ctx) : Except Err Entity :=
  match f.entity f.entityClass context with
  | .error e => .error e
  | .ok e0 =>
    .ok (match f.mapFunction with
         | some ops => applyMapOps ops e0
         | none => e0)

/-! Concrete factories used by witnesses and counterexamples, in the
shape of the repository test fixtures. -/

/-- A user factory: entity class with a generated `name`, no hooks. -/
def userFd : Factory :=
  .mk (some [("name", .prim (.str "generated"))]) none none none none none []

/-- A pet factory whose `owner` attribute is a nested user factory. -/
def petFd : Factory :=
  .mk (some [("owner", .factV userFd)]) none none none none none []

/-- A factory whose `owner` attribute is a promise resolving to a
nested user factory. -/
def promPetFd : Factory :=
  .mk (some [("owner", .prom (.factV userFd))]) none none none none none []

/-- A factory with an overridden `finalize` hook that mutates `name`,
and an entity class whose `age` attribute is a promise. -/
def mutFd : Factory :=
  .mk (some [("name", .prim (.str "generated")), ("age", .prom (.prim (.num 7)))])
      none none none none none [MapOp.set "name" (.prim (.str "mutated"))]

/-- A factory with a map function and two plain attributes. -/
def mapFd : Factory :=
  .mk (some [("name", .prim (.str "generated")), ("age", .prim (.num 7))])
      none none none none (some [MapOp.set "age" (.prim (.num 8))]) []

/-- A factory with no entity class, no overridden `entity` hook, and a
required context key. -/
def noClassFd : Factory :=
  .mk none (some [KeyEntry.single "k"]) none none none none []

/-- A factory requiring a `tenant` context key. -/
def reqFd : Factory :=
  .mk (some [("name", .prim (.str "x"))]) (some [KeyEntry.single "tenant"])
      none none none none []

/-- A factory with both definition-time and override-time configuration
set, for the precedence claim. -/
def precFd : Factory :=
  .mk (some [("name", .prim (.str "definition"))]) (some [KeyEntry.single "a"])
      (some [("name", .prim (.str "override"))]) (some [KeyEntry.single "b"])
      none none []

/-! Association-list lemmas about field assignment and override merge. -/

theorem getField_setField_self : ∀ (e : Entity) (k : String) (v : Value),
    getField (setField e k v) k = some v := by
  intro e k v
  induction e with
  | nil => simp [setField, getField]
  | cons p rest ih =>
    obtain ⟨k2, v2⟩ := p
    by_cases h : k = k2
    · subst h; simp [setField, getField]
    · simp [setField, getField, h, ih]

theorem getField_setField_ne : ∀ (e : Entity) (k k2 : String) (v : Value),
    k ≠ k2 → getField (setField e k2 v) k = getField e k := by
  intro e k k2 v hne
  induction e with
  | nil => simp [setField, getField, hne]
  | cons p rest ih =>
    obtain ⟨k3, v3⟩ := p
    by_cases h : k2 = k3
    · subst h; simp [setField, getField, hne]
    · by_cases h2 : k = k3
      · subst h2; simp [setField, getField, h]
      · simp [setField, getField, h, h2, ih]

theorem applyOverrides_cons (e : Entity) (p : String × Value) (ps : Entity) :
    applyOverrides e (p :: ps) = applyOverrides (setField e p.1 p.2) ps := rfl

theorem getField_applyOverrides_notMem : ∀ (ov e : Entity) (k : String),
    (∀ p ∈ ov, p.1 ≠ k) → getField (applyOverrides e ov) k = getField e k := by
  intro ov
  induction ov with
  | nil => intro e k _; rfl
  | cons p ps ih =>
    intro e k h
    rw [applyOverrides_cons, ih _ _ (fun q hq => h q (List.mem_cons_of_mem _ hq)),
        getField_setField_ne _ _ _ _ (Ne.symm (h p (List.mem_cons_self _ _)))]

theorem getField_applyOverrides_lookup : ∀ (ov e : Entity) (k : String) (v : Value),
    (ov.map Prod.fst).Nodup → List.lookup k ov = some v →
    getField (applyOverrides e ov) k = some v := by
  intro ov
  induction ov with
  | nil => intro e k v _ hl; simp [List.lookup] at hl
  | cons p ps ih =>
    intro e k v hnd hl
    obtain ⟨k2, v2⟩ := p
    rw [applyOverrides_cons]
    by_cases h : k = k2
    · subst h
      simp [List.lookup] at hl
      subst hl
      have hnd2 := hnd
      simp only [List.map_cons] at hnd2
      have hnotin := (List.nodup_cons.mp hnd2).1
      have hk : ∀ q ∈ ps, q.1 ≠ k := by
        intro q hq hqk
        have hmem : q.1 ∈ ps.map Prod.fst := List.mem_map_of_mem Prod.fst hq
        rw [hqk] at hmem
        exact hnotin hmem
      rw [getField_applyOverrides_notMem ps _ k hk]
      exact getField_setField_self _ _ _
    · have hbeq : (k == k2) = false := by simp [h]
      have hl2 : List.lookup k ps = some v := by
        simpa [List.lookup, hbeq] using hl
      have hnd2 := hnd
      simp only [List.map_cons] at hnd2
      exact ih _ _ _ (List.nodup_cons.mp hnd2).2 hl2

/-! Lemmas about the value resolver. -/

theorem plainValue_not_promise {v : Value} (h : plainValue v = true) :
    isPromiseLikeV v = false := by
  cases v <;> simp_all [plainValue, isPromiseLikeV]

theorem plainValue_not_factory {v : Value} (h : plainValue v = true) :
    asFactory v = none := by
  cases v <;> simp_all [plainValue, asFactory]

/-- An entity whose attributes are all plain resolves to itself with no
side effects, whatever the nested-factory constructor is. -/
theorem resolveEntityWith_plain (nested : Factory → DbState → Except Err Entity × DbState) :
    ∀ (attrs : Entity) (st : DbState),
    (∀ p ∈ attrs, plainValue p.2 = true) →
    resolveEntityWith nested attrs st = (.ok attrs, st) := by
  intro attrs
  induction attrs with
  | nil => intro st _; rfl
  | cons p rest ih =>
    intro st h
    obtain ⟨k, v⟩ := p
    have hv : plainValue v = true := h (k, v) (List.mem_cons_self _ _)
    rw [resolveEntityWith, plainValue_not_factory hv,
        ih st (fun q hq => h q (List.mem_cons_of_mem _ hq))]
    simp [plainValue_not_promise hv]

/-! Lemmas about the bulk generators. -/

theorem makeManyGo_length (fuel : Nat) (f : Factory) :
    ∀ (n : Nat) (ov : Entity) (ctx : Ctx) (st : DbState) (out : List Entity) (st2 : DbState),
    Factory.makeManyGo fuel f n ov ctx st = (.ok out, st2) → out.length = n := by
  intro n
  induction n with
  | zero =>
    intro ov ctx st out st2 h
    simp [Factory.makeManyGo] at h
    simp [← h.1]
  | succ n ih =>
    intro ov ctx st out st2 h
    rw [Factory.makeManyGo] at h
    split at h
    · simp at h
    · split at h
      · simp at h
      · rename_i rest stB hg
        simp at h
        obtain ⟨h1, _⟩ := h
        rw [← h1, List.length_cons, ih _ _ _ _ _ hg]

theorem createManyGo_length (fuel : Nat) (f : Factory) :
    ∀ (n : Nat) (ov : Entity) (ctx : Ctx) (so : Option SaveOpts) (st : DbState)
      (out : List Entity) (st2 : DbState),
    Factory.createManyGo fuel f n ov ctx so st = (.ok out, st2) → out.length = n := by
  intro n
  induction n with
  | zero =>
    intro ov ctx so st out st2 h
    simp [Factory.createManyGo] at h
    simp [← h.1]
  | succ n ih =>
    intro ov ctx so st out st2 h
    rw [Factory.createManyGo] at h
    split at h
    · simp at h
    · split at h
      · simp at h
      · rename_i rest stB hg
        simp at h
        obtain ⟨h1, _⟩ := h
        rw [← h1, List.length_cons, ih _ _ _ _ _ _ hg]

/-- Claim C9 (confirmed): whenever a configuration item (entity class or
required context keys) is set both in the constructor-time override
configuration and in the definition-time options, the override-time
value is used; the definition-time value is used only when the
override-time value is absent. -/
theorem override_config_precedence (f : Factory) (t : Entity) (ks : List KeyEntry) :
    (f.overridesEntity = some t → f.entityClass = some t) ∧
    (f.overridesEntity = none → f.entityClass = f.optionsEntity) ∧
    (f.overridesRequiredContextKeys = some ks → f.requiredContextKeys = some ks) ∧
    (f.overridesRequiredContextKeys = none →
      f.requiredContextKeys = f.optionsRequiredContextKeys) := by
  refine ⟨?_, ?_, ?_, ?_⟩ <;> intro h <;>
    simp [Factory.entityClass, Factory.requiredContextKeys, h]

/-- Witness for C9: a factory carrying both configuration tiers uses the
override-time entity class and required keys. -/
theorem override_config_precedence_witness :
    (precFd.overridesEntity = some [("name", .prim (.str "override"))] →
      precFd.entityClass = some [("name", .prim (.str "override"))]) ∧
    (precFd.overridesEntity = none → precFd.entityClass = precFd.optionsEntity) ∧
    (precFd.overridesRequiredContextKeys = some [KeyEntry.single "b"] →
      precFd.requiredContextKeys = some [KeyEntry.single "b"]) ∧
    (precFd.overridesRequiredContextKeys = none →
      precFd.requiredContextKeys = precFd.optionsRequiredContextKeys) :=
  override_config_precedence precFd [("name", .prim (.str "override"))]
    [KeyEntry.single "b"]

/-- Claim C10 (confirmed): for every amount strictly below zero, the
`for` loops of `makeMany` and `createMany` never run, so both return the
empty list with no entity construction, hook invocation, or
persistence (the state is unchanged). -/
theorem many_negative_amount_empty (fuel : Nat) (f : Factory) (n : Int)
    (hn : n < 0) (ov : Entity) (ctx : Ctx) (so : Option SaveOpts) (st : DbState) :
    Factory.makeMany fuel f n ov ctx st = (.ok [], st) ∧
    Factory.createMany fuel f n ov ctx so st = (.ok [], st) := by
  have h0 : n.toNat = 0 := by omega
  constructor <;>
    simp [Factory.makeMany, Factory.createMany, h0, Factory.makeManyGo,
          Factory.createManyGo]

/-- Witness for C10 at amount `-1`. -/
theorem many_negative_amount_empty_witness :
    (-1 : Int) < 0 ∧
    (Factory.makeMany 1 userFd (-1) [] [] st0 = (.ok [], st0) ∧
     Factory.createMany 1 userFd (-1) [] [] none st0 = (.ok [], st0)) :=
  ⟨by decide, many_negative_amount_empty 1 userFd (-1) (by decide) [] [] none st0⟩

/-- Claim C7 (confirmed): for every amount `n ≥ 0`, `makeMany` and
`createMany` run the corresponding single-entity operation exactly `n`
times sequentially and, on success, return exactly `n` entities in call
order; for `n = 0` the result is the empty list and the state (so every
collaborator and hook) is untouched. -/
theorem many_sequential (fuel : Nat) (f : Factory) (n : Int) (ov : Entity)
    (ctx : Ctx) (so : Option SaveOpts) (st : DbState) (hn : 0 ≤ n) :
    (n = 0 → Factory.makeMany fuel f n ov ctx st = (.ok [], st) ∧
             Factory.createMany fuel f n ov ctx so st = (.ok [], st)) ∧
    (∀ out st2, Factory.makeMany fuel f n ov ctx st = (.ok out, st2) →
      out.length = n.toNat) ∧
    (∀ out st2, Factory.createMany fuel f n ov ctx so st = (.ok out, st2) →
      out.length = n.toNat) ∧
    (1 ≤ n →
      Factory.makeMany fuel f n ov ctx st =
        (match Factory.make fuel f ov ctx st with
         | (Except.error e, st2) => (Except.error e, st2)
         | (Except.ok e, st2) =>
           match Factory.makeMany fuel f (n - 1) ov ctx st2 with
           | (Except.error e2, st3) => (Except.error e2, st3)
           | (Except.ok rest, st3) => (Except.ok (e :: rest), st3)) ∧
      Factory.createMany fuel f n ov ctx so st =
        (match Factory.create fuel f ov ctx so st with
         | (Except.error e, st2) => (Except.error e, st2)
         | (Except.ok e, st2) =>
           match Factory.createMany fuel f (n - 1) ov ctx so st2 with
           | (Except.error e2, st3) => (Except.error e2, st3)
           | (Except.ok rest, st3) => (Except.ok (e :: rest), st3))) := by
  refine ⟨?_, ?_, ?_, ?_⟩
  · intro h
    subst h
    constructor <;> rfl
  · intro out st2 h
    exact makeManyGo_length fuel f n.toNat ov ctx st out st2 h
  · intro out st2 h
    exact createManyGo_length fuel f n.toNat ov ctx so st out st2 h
  · intro h1
    have htn : n.toNat = (n - 1).toNat + 1 := by omega
    constructor
    · rw [Factory.makeMany, htn, Factory.makeManyGo]
      simp only [Factory.makeMany]
    · rw [Factory.createMany, htn, Factory.createManyGo]
      simp only [Factory.createMany]

/-- Witness for C7 at amount `2`. -/
theorem many_sequential_witness :
    (0 : Int) ≤ 2 ∧
    (((2 : Int) = 0 → Factory.makeMany 1 userFd 2 [] [] st0 = (.ok [], st0) ∧
             Factory.createMany 1 userFd 2 [] [] none st0 = (.ok [], st0)) ∧
    (∀ out st2, Factory.makeMany 1 userFd 2 [] [] st0 = (.ok out, st2) →
      out.length = (2 : Int).toNat) ∧
    (∀ out st2, Factory.createMany 1 userFd 2 [] [] none st0 = (.ok out, st2) →
      out.length = (2 : Int).toNat) ∧
    ((1 : Int) ≤ 2 →
      Factory.makeMany 1 userFd 2 [] [] st0 =
        (match Factory.make 1 userFd [] [] st0 with
         | (Except.error e, st2) => (Except.error e, st2)
         | (Except.ok e, st2) =>
           match Factory.makeMany 1 userFd (2 - 1) [] [] st2 with
           | (Except.error e2, st3) => (Except.error e2, st3)
           | (Except.ok rest, st3) => (Except.ok (e :: rest), st3)) ∧
      Factory.createMany 1 userFd 2 [] [] none st0 =
        (match Factory.create 1 userFd [] [] none st0 with
         | (Except.error e, st2) => (Except.error e, st2)
         | (Except.ok e, st2) =>
           match Factory.createMany 1 userFd (2 - 1) [] [] none st2 with
           | (Except.error e2, st3) => (Except.error e2, st3)
           | (Except.ok rest, st3) => (Except.ok (e :: rest), st3)))) :=
  ⟨by decide, many_sequential 1 userFd 2 [] [] none st0 (by decide)⟩

/-- Claim C5 (confirmed): when a factory declares required context keys
and the supplied context leaves some required entry unsatisfied, `make`
and `create` fail with the `MissingContextError` naming the first
unsatisfied entry, and the state is returned unchanged: no entity hook,
no map function, no persistence, no event at all. -/
theorem missingContext_no_side_effects (f : Factory) (keys : List KeyEntry)
    (ctx : Ctx) (entry : KeyEntry) (fuel : Nat) (ov : Entity)
    (so : Option SaveOpts) (st : DbState)
    (hkeys : f.requiredContextKeys = some keys)
    (hfind : keys.find? (fun e2 => !(entrySatisfied ctx e2)) = some entry) :
    Factory.make fuel f ov ctx st = (.error (.missingContext entry), st) ∧
    Factory.create fuel f ov ctx so st = (.error (.missingContext entry), st) ∧
    entrySatisfied ctx entry = false := by
  have hcc : contextCheck f ctx = .error (.missingContext entry) := by
    simp [contextCheck, hkeys, expectContext, hfind]
  have hme : ∀ persist so2,
      Factory.makeEntity fuel f ov ctx persist so2 st =
        (.error (.missingContext entry), st) := by
    intro persist so2
    cases fuel <;> simp [Factory.makeEntity, makeEntityCore, hcc]
  refine ⟨?_, ?_, ?_⟩
  · simp [Factory.make, hme]
  · simp [Factory.create, hme]
  · simpa using List.find?_some hfind

/-- Witness for C5: a factory requiring a `tenant` key called with an
empty context fails with no side effects. -/
theorem missingContext_no_side_effects_witness :
    reqFd.requiredContextKeys = some [KeyEntry.single "tenant"] ∧
    [KeyEntry.single "tenant"].find? (fun e2 => !(entrySatisfied [] e2)) =
      some (KeyEntry.single "tenant") ∧
    (Factory.make 1 reqFd [] [] st0 =
       (.error (.missingContext (KeyEntry.single "tenant")), st0) ∧
     Factory.create 1 reqFd [] [] none st0 =
       (.error (.missingContext (KeyEntry.single "tenant")), st0) ∧
     entrySatisfied [] (KeyEntry.single "tenant") = false) :=
  ⟨rfl, rfl,
   missingContext_no_side_effects reqFd [KeyEntry.single "tenant"] []
     (KeyEntry.single "tenant") 1 [] none st0 rfl rfl⟩

/-- Claim C6 (amended; corrected): a factory with no entity class
configured and no overridden entity hook never returns an entity: every
`make` and `create` call fails, with the `MissingContextError` of the
context guard when required-context validation fails first, and
otherwise with `NotImplementedError`. -/
theorem noClass_noHook_never_succeeds (f : Factory)
    (hclass : f.entityClass = none) (hhook : f.entityHook = none)
    (fuel : Nat) (ov : Entity) (ctx : Ctx) (so : Option SaveOpts) (st : DbState) :
    (Factory.make fuel f ov ctx st).1 =
      (match contextCheck f ctx with
       | .error e => .error e
       | .ok _ => .error Err.notImplemented) ∧
    (Factory.create fuel f ov ctx so st).1 =
      (match contextCheck f ctx with
       | .error e => .error e
       | .ok _ => .error Err.notImplemented) := by
  have hent : Factory.entity f f.entityClass ctx = .error .notImplemented := by
    simp [Factory.entity, hhook, hclass]
  have hme : ∀ persist so2, (Factory.makeEntity fuel f ov ctx persist so2 st).1 =
      (match contextCheck f ctx with
       | .error e => .error e
       | .ok _ => .error Err.notImplemented) := by
    intro persist so2
    rcases hcc : contextCheck f ctx with e | u
    · cases fuel <;> simp [Factory.makeEntity, makeEntityCore, hcc]
    · cases fuel <;> simp [Factory.makeEntity, makeEntityCore, hcc, hent]
  constructor
  · simpa [Factory.make] using hme false none
  · rcases hc : Factory.makeEntity fuel f ov ctx true so st with ⟨r, st2⟩
    have h1 := hme true so
    rw [hc] at h1
    rcases hcc : contextCheck f ctx with e | u
    · rw [hcc] at h1
      simp only at h1
      subst h1
      simp [Factory.create, hc, hcc]
    · rw [hcc] at h1
      simp only at h1
      subst h1
      simp [Factory.create, hc, hcc]

/-- Counterexample for C6 as stated: a factory with no entity class and
the default entity hook, but declaring a required context key, fails a
`make` call with empty context with `MissingContextError`, which is not
`NotImplementedError`. -/
theorem noClass_noHook_cex :
    (Factory.make 1 noClassFd [] [] st0).1 =
      Except.error (Err.missingContext (KeyEntry.single "k")) ∧
    Err.missingContext (KeyEntry.single "k") ≠ Err.notImplemented :=
  ⟨rfl, by decide⟩

/-- Witness for C6: the amended statement evaluated on a factory with no
entity class and no hook, with a context that passes validation. -/
theorem noClass_noHook_never_succeeds_witness :
    noClassFd.entityClass = none ∧ noClassFd.entityHook = none ∧
    ((Factory.make 1 noClassFd [] [("k", Prim.str "v")] st0).1 =
      (match contextCheck noClassFd [("k", Prim.str "v")] with
       | .error e => .error e
       | .ok _ => .error Err.notImplemented) ∧
     (Factory.create 1 noClassFd [] [("k", Prim.str "v")] none st0).1 =
      (match contextCheck noClassFd [("k", Prim.str "v")] with
       | .error e => .error e
       | .ok _ => .error Err.notImplemented)) :=
  ⟨rfl, rfl,
   noClass_noHook_never_succeeds noClassFd rfl rfl 1 [] [("k", Prim.str "v")]
     none st0⟩

/-- Awaiting a value never yields a promise-like value: JS `await`
unwraps thenable chains completely. -/
theorem awaitValue_not_promise : (v : Value) → isPromiseLikeV (awaitValue v) = false
  | .prim _ => rfl
  | .factV _ => rfl
  | .obj _ => rfl
  | .prom v2 => by rw [awaitValue]; exact awaitValue_not_promise v2

/-- Pointwise relation between an attribute before and after resolution:
the key is unchanged, the resolved value is never promise-like, and a
value that was directly a factory instance never remains one. -/
def resolvedPair (inp outp : String × Value) : Prop :=
  outp.1 = inp.1 ∧ isPromiseLikeV outp.2 = false ∧
    ((asFactory inp.2).isSome → asFactory outp.2 = none)

/-- Claim C3 (amended; corrected): whenever the value resolver succeeds,
every attribute of its output is free of promise-like values, and every
attribute whose input value was directly a factory instance has been
replaced by a constructed entity. (An attribute whose input is a
promise-like value resolving to a factory instance is only awaited: the
raw factory instance remains, see the counterexample.) -/
theorem resolveEntity_output_resolved
    (nested : Factory → DbState → Except Err Entity × DbState) :
    ∀ (attrs : Entity) (st : DbState) (out : Entity) (st2 : DbState),
    resolveEntityWith nested attrs st = (.ok out, st2) →
    List.Forall₂ resolvedPair attrs out := by
  intro attrs
  induction attrs with
  | nil =>
    intro st out st2 h
    simp [resolveEntityWith] at h
    obtain ⟨h1, _⟩ := h
    subst h1
    exact List.Forall₂.nil
  | cons p rest ih =>
    intro st out st2 h
    obtain ⟨k, v⟩ := p
    rw [resolveEntityWith] at h
    rcases hv : asFactory v with _ | g
    · rw [hv] at h
      simp only at h
      split at h
      · simp at h
      · rename_i rest2 st3 hrec
        simp at h
        obtain ⟨hout, _⟩ := h
        rw [← hout]
        refine List.Forall₂.cons ⟨rfl, ?_, ?_⟩ (ih _ _ _ hrec)
        · rcases hp : isPromiseLikeV v with _ | _
          · simp [hp]
          · simp [hp, awaitValue_not_promise]
        · intro habs
          simp [hv] at habs
    · rw [hv] at h
      simp only at h
      split at h
      · simp at h
      · rename_i child stB hnested
        split at h
        · simp at h
        · rename_i rest2 st3 hrec
          simp at h
          obtain ⟨hout, _⟩ := h
          rw [← hout]
          exact List.Forall₂.cons ⟨rfl, rfl, fun _ => rfl⟩ (ih _ _ _ hrec)

/-- Counterexample for C3 as stated: under `make`, an attribute whose
initial value is a promise resolving to a factory instance is returned
still holding the raw factory instance. -/
theorem promise_factory_unresolved_cex :
    (Factory.make 1 promPetFd [] [] st0).1 =
      Except.ok [("owner", Value.factV userFd)] ∧
    isFactoryV (Value.factV userFd) = true :=
  ⟨rfl, rfl⟩

/-- Witness for C3: resolution of a record holding a promise, a plain
value and a direct factory instance. -/
theorem resolveEntity_output_resolved_witness :
    resolveEntityWith (fun _ st => (.ok [("name", Value.prim (Prim.str "n"))], st))
      [("a", Value.prom (Value.prim (Prim.num 1))),
       ("b", Value.prim (Prim.str "s")),
       ("c", Value.factV userFd)] st0 =
      (.ok [("a", Value.prim (Prim.num 1)),
            ("b", Value.prim (Prim.str "s")),
            ("c", Value.obj [("name", Value.prim (Prim.str "n"))])], st0) ∧
    List.Forall₂ resolvedPair
      [("a", Value.prom (Value.prim (Prim.num 1))),
       ("b", Value.prim (Prim.str "s")),
       ("c", Value.factV userFd)]
      [("a", Value.prim (Prim.num 1)),
       ("b", Value.prim (Prim.str "s")),
       ("c", Value.obj [("name", Value.prim (Prim.str "n"))])] :=
  ⟨rfl,
   resolveEntity_output_resolved
     (fun _ st => (.ok [("name", Value.prim (Prim.str "n"))], st)) _ st0 _ _ rfl⟩

/-- A successful `makeEntityCore` run ends its trace with the finalize
event on the resolved entity, and returns that entity mutated by the
finalize hook. -/
theorem makeEntityCore_ok_trace
    (nested : Bool → Option SaveOpts → Factory → DbState → Except Err Entity × DbState)
    (f : Factory) (ov : Entity) (ctx : Ctx) (persist : Bool)
    (so : Option SaveOpts) (st : DbState) (e : Entity) (st2 : DbState)
    (h : makeEntityCore nested f ov ctx persist so st = (.ok e, st2)) :
    ∃ T r, st2.trace = T ++ [Event.finalizeEv r ctx] ∧
      e = applyMapOps f.finalizeOps r := by
  simp only [makeEntityCore] at h
  split at h
  · simp at h
  · split at h
    · simp at h
    · split at h
      · simp at h
      · rename_i resolved st3 hres
        simp at h
        obtain ⟨he, hst⟩ := h
        refine ⟨st3.trace, resolved, ?_, he.symm⟩
        rw [← hst]

/-- A successful `makeEntity` run ends its trace with the finalize
event on the resolved entity. -/
theorem makeEntity_ok_trace (fuel : Nat) (f : Factory) (ov : Entity)
    (ctx : Ctx) (persist : Bool) (so : Option SaveOpts) (st : DbState)
    (e : Entity) (st2 : DbState)
    (h : Factory.makeEntity fuel f ov ctx persist so st = (.ok e, st2)) :
    ∃ T r, st2.trace = T ++ [Event.finalizeEv r ctx] ∧
      e = applyMapOps f.finalizeOps r := by
  cases fuel with
  | zero =>
    rw [Factory.makeEntity] at h
    exact makeEntityCore_ok_trace _ _ _ _ _ _ _ _ _ h
  | succ fuel =>
    rw [Factory.makeEntity] at h
    exact makeEntityCore_ok_trace _ _ _ _ _ _ _ _ _ h

/-- Claim C1 (amended; corrected): in `create`, the finalize hook is
invoked only after the entity has been fully resolved, but BEFORE the
top-level save: the trace of a successful `create` ends with the
finalize event, then optionally the data-source initialization, then
the save of the returned entity. The finalize hook therefore sees a
fully resolved but not-yet-persisted entity. -/
theorem create_finalize_precedes_save (fuel : Nat) (f : Factory) (ov : Entity)
    (ctx : Ctx) (so : Option SaveOpts) (st : DbState) (e : Entity) (st2 : DbState)
    (h : Factory.create fuel f ov ctx so st = (.ok e, st2)) :
    ∃ T r mid,
      st2.trace = T ++ [Event.finalizeEv r ctx] ++ mid ++ [Event.saveEv e so] ∧
      (mid = [] ∨ mid = [Event.dsInit]) := by
  rw [Factory.create] at h
  split at h
  · simp at h
  · rename_i ent stA hme
    simp at h
    obtain ⟨he, hst⟩ := h
    obtain ⟨T, r, htrace, -⟩ := makeEntity_ok_trace _ _ _ _ _ _ _ _ _ hme
    subst he
    subst hst
    rcases hinit : stA.initialized with _ | _
    · refine ⟨T, r, [Event.dsInit], ?_, Or.inr rfl⟩
      simp [dbSave, hinit, htrace]
    · refine ⟨T, r, [], ?_, Or.inl rfl⟩
      simp [dbSave, hinit, htrace]

/-- Counterexample for C1 as stated: in this concrete `create` call the
finalize event occurs strictly before the save event in the trace, so
the save did not complete before finalize ran. -/
theorem create_save_before_finalize_cex :
    ((Factory.create 1 userFd [] [] none st0).2.trace.findIdx
        (fun ev => isFinalizeEv ev)) <
      ((Factory.create 1 userFd [] [] none st0).2.trace.findIdx
        (fun ev => isSaveEv ev)) ∧
    (Factory.create 1 userFd [] [] none st0).2.trace.any
        (fun ev => isSaveEv ev) = true ∧
    (Factory.create 1 userFd [] [] none st0).2.trace.any
        (fun ev => isFinalizeEv ev) = true :=
  ⟨by decide, rfl, rfl⟩

/-- Witness for C1: the amended ordering evaluated on a concrete
successful `create`. -/
theorem create_finalize_precedes_save_witness :
    (Factory.create 1 userFd [] [] none st0).1 =
      Except.ok [("name", Value.prim (Prim.str "generated")),
                 ("id", Value.prim (Prim.num 0))] ∧
    (∃ T r mid, (Factory.create 1 userFd [] [] none st0).2.trace =
        T ++ [Event.finalizeEv r []] ++ mid ++
          [Event.saveEv [("name", Value.prim (Prim.str "generated")),
                         ("id", Value.prim (Prim.num 0))] none] ∧
      (mid = [] ∨ mid = [Event.dsInit])) :=
  ⟨rfl, create_finalize_precedes_save 1 userFd [] [] none st0 _ _ rfl⟩

/-- Claim C2 (code bug): evaluation at the failing input. The outer
`create` call carries save options S, yet the nested `create` triggered
by the factory-valued `owner` attribute records S as the context of the
nested entity hook, and the nested save runs with NO save options; only
the outer save receives S. This is the source line 204 call
`attributeValue.create(undefined, saveOptions)`, which passes the save
options in the context parameter position of `create` and leaves the
save-options parameter of the nested call undefined. -/
theorem nested_create_saveOptions_as_context :
    (Factory.create 1 petFd [] [] (some [("chunk", Prim.num 5)]) st0).2.trace.filterMap
        evSaveOptions = [none, some [("chunk", Prim.num 5)]] ∧
    (Factory.create 1 petFd [] [] (some [("chunk", Prim.num 5)]) st0).2.trace.filterMap
        evHookContext = [[], [("chunk", Prim.num 5)]] :=
  ⟨rfl, rfl⟩

theorem applyMapStep_fst (f : Factory) (e0 : Entity) (st : DbState) :
    (applyMapStep f e0 st).1 =
      (match f.mapFunction with
       | some ops => applyMapOps ops e0
       | none => e0) := by
  rcases hm : f.mapFunction with _ | ops <;> simp [applyMapStep, hm]

/-- Claim C4 (amended; corrected): provided the finalize hook is the
default no-op and the merge of the override params onto the hook-and-map
entity contains only plain values (no promise-like values or factory
instances), a successful `make` returns an entity whose overridden
attributes are exactly the override values and whose remaining
attributes are exactly what the entity hook followed by the map function
produced. -/
theorem make_override_merge (fuel : Nat) (f : Factory) (ov : Entity) (ctx : Ctx)
    (st : DbState) (e : Entity) (st2 : DbState) (e1 : Entity)
    (hfin : f.finalizeOps = [])
    (hhm : hookAndMap f ctx = .ok e1)
    (hplain : ∀ p ∈ applyOverrides e1 ov, plainValue p.2 = true)
    (hnd : (ov.map Prod.fst).Nodup)
    (hmk : Factory.make fuel f ov ctx st = (.ok e, st2)) :
    (∀ k v, List.lookup k ov = some v → getField e k = some v) ∧
    (∀ k, (∀ p ∈ ov, p.1 ≠ k) → getField e k = getField e1 k) := by
  have he : e = applyOverrides e1 ov := by
    rw [Factory.make] at hmk
    have hcore : ∃ nst, Factory.makeEntity fuel = makeEntityCore nst := by
      cases fuel
      · exact ⟨_, rfl⟩
      · exact ⟨_, rfl⟩
    obtain ⟨nst, hnst⟩ := hcore
    rw [hnst] at hmk
    simp only [makeEntityCore] at hmk
    split at hmk
    · simp at hmk
    · split at hmk
      · rename_i err herr
        rw [hookAndMap, herr] at hhm
        simp at hhm
      · rename_i e0 he0
        rw [hookAndMap, he0] at hhm
        simp only [Except.ok.injEq] at hhm
        rw [applyMapStep_fst, hhm] at hmk
        rw [resolveEntityWith_plain _ _ _ hplain] at hmk
        simp only [hfin] at hmk
        simp at hmk
        exact hmk.1.symm
  subst he
  exact ⟨fun k v hl => getField_applyOverrides_lookup ov e1 k v hnd hl,
         fun k hk => getField_applyOverrides_notMem ov e1 k hk⟩

/-- Counterexample for C4 as stated: a factory whose finalize hook
mutates `name` and whose entity class initializes `age` with a promise.
The `make` call overriding `name` with the string John returns the
string mutated at `name` (override did not survive), and returns the
awaited number at `age` rather than the promise the hook produced. -/
theorem make_override_merge_cex :
    (Factory.make 1 mutFd [("name", Value.prim (Prim.str "John"))] [] st0).1 =
      Except.ok [("name", Value.prim (Prim.str "mutated")),
                 ("age", Value.prim (Prim.num 7))] ∧
    Prim.str "mutated" ≠ Prim.str "John" ∧
    getField [("name", Value.prim (Prim.str "generated")),
              ("age", Value.prom (Value.prim (Prim.num 7)))] "age" =
      some (Value.prom (Value.prim (Prim.num 7))) :=
  ⟨rfl, by decide, rfl⟩

/-- Witness for C4: the amended statement evaluated on a factory with a
map function and the default finalize hook. -/
theorem make_override_merge_witness :
    mapFd.finalizeOps = [] ∧
    hookAndMap mapFd [] =
      .ok [("name", Value.prim (Prim.str "generated")),
           ("age", Value.prim (Prim.num 8))] ∧
    (∀ k v, List.lookup k [("name", Value.prim (Prim.str "John"))] = some v →
      getField [("name", Value.prim (Prim.str "John")),
                ("age", Value.prim (Prim.num 8))] k = some v) ∧
    (∀ k, (∀ p ∈ [("name", Value.prim (Prim.str "John"))], p.1 ≠ k) →
      getField [("name", Value.prim (Prim.str "John")),
                ("age", Value.prim (Prim.num 8))] k =
        getField [("name", Value.prim (Prim.str "generated")),
                  ("age", Value.prim (Prim.num 8))] k) := by
  refine ⟨rfl, rfl, ?_⟩
  have h := make_override_merge 1 mapFd [("name", Value.prim (Prim.str "John"))]
    [] st0
    [("name", Value.prim (Prim.str "John")), ("age", Value.prim (Prim.num 8))]
    ((Factory.make 1 mapFd [("name", Value.prim (Prim.str "John"))] [] st0).2)
    [("name", Value.prim (Prim.str "generated")), ("age", Value.prim (Prim.num 8))]
    rfl rfl (by decide) (by decide) rfl
  exact h

theorem noPersistChange_refl (st : DbState) : noPersistChange st st :=
  ⟨rfl, rfl, rfl, rfl⟩

theorem noPersistChange_trans {stA stB stC : DbState}
    (h1 : noPersistChange stA stB) (h2 : noPersistChange stB stC) :
    noPersistChange stA stC :=
  ⟨h2.1.trans h1.1, h2.2.1.trans h1.2.1, h2.2.2.1.trans h1.2.2.1,
   h2.2.2.2.trans h1.2.2.2⟩

/-- Appending a non-persistence event to the trace does not change the
persistence observations. -/
theorem noPersistChange_addEvent (st : DbState) (ev : Event)
    (h1 : isSaveEv ev = false) (h2 : isDsInit ev = false) :
    noPersistChange st { st with trace := st.trace ++ [ev] } := by
  refine ⟨rfl, rfl, ?_, ?_⟩ <;>
    simp [saveCount, initCount, List.countP_append, List.countP_cons, h1, h2]

/-- The resolver preserves the persistence observations whenever the
nested-factory constructor does. -/
theorem resolveEntityWith_noPersist
    (nested : Factory → DbState → Except Err Entity × DbState)
    (hn : ∀ g st, noPersistChange st (nested g st).2) :
    ∀ (attrs : Entity) (st : DbState),
    noPersistChange st (resolveEntityWith nested attrs st).2 := by
  intro attrs
  induction attrs with
  | nil => intro st; exact noPersistChange_refl st
  | cons p rest ih =>
    intro st
    obtain ⟨k, v⟩ := p
    rw [resolveEntityWith]
    rcases hv : asFactory v with _ | g
    · rcases hr : resolveEntityWith nested rest st with ⟨r, stB⟩
      have hB : noPersistChange st stB := by
        have h2 := ih st
        rw [hr] at h2
        exact h2
      simp only [hv, hr]
      cases r <;> exact hB
    · rcases hg : nested g st with ⟨rg, stB⟩
      have hB : noPersistChange st stB := by
        have h2 := hn g st
        rw [hg] at h2
        exact h2
      simp only [hv, hg]
      cases rg with
      | error e => exact hB
      | ok child =>
        rcases hr : resolveEntityWith nested rest stB with ⟨r2, stC⟩
        have hC : noPersistChange stB stC := by
          have h2 := ih stB
          rw [hr] at h2
          exact h2
        simp only [hr]
        cases r2 <;> exact noPersistChange_trans hB hC

/-- One non-persisting `makeEntityCore` level preserves the persistence
observations whenever its nested constructor does under `persist =
false`. -/
theorem makeEntityCore_noPersist
    (nested : Bool → Option SaveOpts → Factory → DbState → Except Err Entity × DbState)
    (so : Option SaveOpts)
    (hn : ∀ g st, noPersistChange st (nested false so g st).2) :
    ∀ (f : Factory) (ov : Entity) (ctx : Ctx) (st : DbState),
    noPersistChange st (makeEntityCore nested f ov ctx false so st).2 := by
  intro f ov ctx st
  simp only [makeEntityCore]
  split
  · exact noPersistChange_refl st
  · have h1 : noPersistChange st
        { st with trace := st.trace ++ [Event.entityHookCall ctx] } :=
      noPersistChange_addEvent st _ rfl rfl
    split
    · exact h1
    · rename_i e0 he0
      have h2 : noPersistChange
          { st with trace := st.trace ++ [Event.entityHookCall ctx] }
          (applyMapStep f e0 { st with trace := st.trace ++ [Event.entityHookCall ctx] }).2 := by
        rcases hm : f.mapFunction with _ | ops
        · simp only [applyMapStep, hm]
          exact noPersistChange_refl _
        · simp only [applyMapStep, hm]
          exact noPersistChange_addEvent _ _ rfl rfl
      have h3 := resolveEntityWith_noPersist (nested false so) hn
        (applyOverrides (applyMapStep f e0 { st with trace := st.trace ++ [Event.entityHookCall ctx] }).1 ov)
        (applyMapStep f e0 { st with trace := st.trace ++ [Event.entityHookCall ctx] }).2
      rcases hr : resolveEntityWith (nested false so)
          (applyOverrides (applyMapStep f e0 { st with trace := st.trace ++ [Event.entityHookCall ctx] }).1 ov)
          (applyMapStep f e0 { st with trace := st.trace ++ [Event.entityHookCall ctx] }).2
        with ⟨r, st3⟩
      rw [hr] at h3
      cases r with
      | error e => exact noPersistChange_trans h1 (noPersistChange_trans h2 h3)
      | ok resolved =>
        exact noPersistChange_trans h1 (noPersistChange_trans h2
          (noPersistChange_trans h3 (noPersistChange_addEvent st3 _ rfl rfl)))

/-- A non-persisting `makeEntity` preserves the persistence
observations, for every fuel level. -/
theorem makeEntity_noPersist :
    ∀ (fuel : Nat) (f : Factory) (ov : Entity) (ctx : Ctx)
      (so : Option SaveOpts) (st : DbState),
    noPersistChange st (Factory.makeEntity fuel f ov ctx false so st).2 := by
  intro fuel
  induction fuel with
  | zero =>
    intro f ov ctx so st
    rw [Factory.makeEntity]
    exact makeEntityCore_noPersist _ so (fun g st => noPersistChange_refl st) f ov ctx st
  | succ fuel ih =>
    intro f ov ctx so st
    rw [Factory.makeEntity]
    refine makeEntityCore_noPersist _ so ?_ f ov ctx st
    intro g st
    exact ih g [] [] none st

/-- Claim C8 (confirmed): `make` (including nested `make` calls
triggered by factory-valued attributes) never invokes the persistence
collaborator: the data-source initialization flag, the identity counter,
the number of save events and the number of initialization events in
the trace are all unchanged by any `make` call. -/
theorem make_never_persists (fuel : Nat) (f : Factory) (ov : Entity)
    (ctx : Ctx) (st : DbState) :
    (Factory.make fuel f ov ctx st).2.initialized = st.initialized ∧
    (Factory.make fuel f ov ctx st).2.nextId = st.nextId ∧
    saveCount (Factory.make fuel f ov ctx st).2.trace = saveCount st.trace ∧
    initCount (Factory.make fuel f ov ctx st).2.trace = initCount st.trace := by
  have h := makeEntity_noPersist fuel f ov ctx none st
  exact ⟨h.1, h.2.1, h.2.2.1, h.2.2.2⟩

end Seeding
